import Mathlib

/-!
Verification of the delivery pipeline of a client-side error-monitoring SDK.

The development shallowly embeds the pipeline components of the repository:

* `RingBuffer`  - the bounded breadcrumb history ring (`class RingBuffer<T>`);
* `BatchQueue`  - the batching aggregator (`class BatchQueue`);
* `OfflineCache` - the durable offline store (`class OfflineCache`);
* `Monitor`     - the capture/report orchestrator (`class ErrorMonitor`).

JavaScript arrays become `List`s, objects become structures, `undefined`dness
becomes `Option`, synchronous exceptions become `Except Unit`, and the ambient
browser globals (`navigator`, `location`, timers, `Math.random()`) become an
explicit environment/state threaded through the definitions.  The embedding is
single-threaded, matching the cooperative scheduling of the source.
-/

namespace ErrorSDK

/-! ## History Ring (`RingBuffer`) -/

/-- Fixed-capacity ring buffer, translated from `class RingBuffer<T>`.
The backing JS array `buffer` of length `capacity`, whose slots may be empty,
is modelled as a `List (Option α)`; `head`, `tail` and `_size` are the
source's index fields (`_size` is rendered `size`). -/
structure RingBuffer (α : Type) where
  buffer : List (Option α)
  capacity : Nat
  head : Nat
  tail : Nat
  size : Nat

/-- The `new RingBuffer(capacity)`: `this.buffer = new Array(capacity)`, all slots
empty, `head = tail = _size = 0`. -/
def RingBuffer.init (α : Type) (capacity : Nat) : RingBuffer α :=
  { buffer := List.replicate capacity none
    capacity := capacity
    head := 0
    tail := 0
    size := 0 }

/-- The `push(item)`: write at `tail`, advance `tail` modulo `capacity`; grow
`_size` while below capacity, otherwise advance `head` (overwriting the
oldest element). -/
def RingBuffer.push (rb : RingBuffer α) (item : α) : RingBuffer α :=
  let buffer := rb.buffer.set rb.tail (some item)
  let tail := (rb.tail + 1) % rb.capacity
  if rb.size < rb.capacity then
    { rb with buffer := buffer, tail := tail, size := rb.size + 1 }
  else
    { rb with buffer := buffer, tail := tail, head := (rb.head + 1) % rb.capacity }

/-- The `toArray()`: collect `buffer[(head + i) % capacity]` for `i < _size` into a
fresh array, skipping empty slots (the `item !== undefined` guard).  The result
is a new list built from reads, so it shares no storage with `buffer`. -/
def RingBuffer.toArray (rb : RingBuffer α) : List α :=
  (List.range rb.size).filterMap (fun i => (rb.buffer[(rb.head + i) % rb.capacity]?).getD none)

/-- Push a whole sequence in order. -/
def RingBuffer.pushAll (rb : RingBuffer α) (xs : List α) : RingBuffer α :=
  xs.foldl RingBuffer.push rb

/-- Abstract effect of one `push` on the retained (oldest-first) contents. -/
def absPush (cap : Nat) (l : List α) (x : α) : List α :=
  if l.length < cap then l ++ [x] else l.tail ++ [x]

/-- Coupling invariant between a concrete ring-buffer state and its abstract
oldest-first contents `l`. -/
structure RingInv (cap : Nat) (rb : RingBuffer α) (l : List α) : Prop where
  buflen : rb.buffer.length = cap
  capeq : rb.capacity = cap
  headlt : rb.head < cap
  sizele : rb.size ≤ cap
  leneq : l.length = rb.size
  taileq : rb.tail = (rb.head + rb.size) % cap
  content : ∀ i, i < rb.size → rb.buffer[(rb.head + i) % cap]? = some l[i]?

theorem ringInv_init {α : Type} (cap : Nat) (hcap : 0 < cap) :
    RingInv cap (RingBuffer.init α cap) [] := by
  refine ⟨by simp [RingBuffer.init], rfl, hcap, Nat.zero_le _, rfl, by simp [RingBuffer.init], ?_⟩
  intro i hi
  exact absurd hi (Nat.not_lt_zero i)

theorem ringInv_push {α : Type} {cap : Nat} {rb : RingBuffer α} {l : List α}
    (h : RingInv cap rb l) (x : α) : RingInv cap (rb.push x) (absPush cap l x) := by
  obtain ⟨hbuf, hcapeq, hhead, hsize, hlen, htail, hcont⟩ := h
  have hcappos : 0 < cap := Nat.lt_of_le_of_lt (Nat.zero_le _) hhead
  by_cases hfull : rb.size < rb.capacity
  · -- below capacity: append, head fixed
    have hszlt : rb.size < cap := by omega
    have habs : absPush cap l x = l ++ [x] := by
      unfold absPush
      rw [if_pos (by omega : l.length < cap)]
    rw [RingBuffer.push, if_pos hfull, habs]
    refine ⟨?_, ?_, ?_, ?_, ?_, ?_, ?_⟩
    · show (rb.buffer.set rb.tail (some x)).length = cap
      simpa using hbuf
    · exact hcapeq
    · exact hhead
    · show rb.size + 1 ≤ cap
      omega
    · show (l ++ [x]).length = rb.size + 1
      simp [hlen]
    · show (rb.tail + 1) % rb.capacity = (rb.head + (rb.size + 1)) % cap
      rw [hcapeq, htail, Nat.mod_add_mod]
      exact congrArg (· % cap) (by omega)
    · intro i hi
      have hi' : i < rb.size + 1 := hi
      show (rb.buffer.set rb.tail (some x))[(rb.head + i) % cap]? = some (l ++ [x])[i]?
      rcases Nat.lt_or_ge i rb.size with hilt | hige
      · -- untouched slot
        have hne : rb.tail ≠ (rb.head + i) % cap := by
          rw [htail]
          intro hmod
          have hme : rb.head + rb.size ≡ rb.head + i [MOD cap] := hmod
          have h1 : rb.size % cap = i % cap := Nat.ModEq.add_left_cancel' rb.head hme
          rw [Nat.mod_eq_of_lt hszlt, Nat.mod_eq_of_lt (by omega)] at h1
          omega
        rw [List.getElem?_set_ne hne, hcont i hilt,
          List.getElem?_append_left (by omega : i < l.length)]
      · -- the freshly written slot
        have hieq : i = rb.size := by omega
        subst hieq
        rw [← htail]
        have htlt : rb.tail < rb.buffer.length := by
          rw [hbuf, htail]
          exact Nat.mod_lt _ hcappos
        rw [List.getElem?_set_self', List.getElem?_eq_getElem htlt]
        have hr : (l ++ [x])[l.length]? = some x := List.getElem?_concat_length l x
        rw [hlen] at hr
        rw [hr]
        rfl
  · -- at capacity: overwrite the oldest element, advance head
    have hszeq : rb.size = cap := by omega
    have hleneq : l.length = cap := by omega
    have habs : absPush cap l x = l.tail ++ [x] := by
      unfold absPush
      rw [if_neg (by omega)]
    have htaileq : rb.tail = rb.head := by
      rw [htail, hszeq, Nat.add_mod_right, Nat.mod_eq_of_lt hhead]
    obtain ⟨a, l', rfl⟩ : ∃ a l', l = a :: l' := by
      cases l with
      | nil => simp at hleneq; omega
      | cons a l' => exact ⟨a, l', rfl⟩
    have hl' : l'.length = cap - 1 := by
      simp at hleneq
      omega
    have habs' : absPush cap (a :: l') x = l' ++ [x] := by
      rw [habs]
      rfl
    rw [RingBuffer.push, if_neg hfull, habs']
    refine ⟨?_, ?_, ?_, ?_, ?_, ?_, ?_⟩
    · show (rb.buffer.set rb.tail (some x)).length = cap
      simpa using hbuf
    · exact hcapeq
    · show (rb.head + 1) % rb.capacity < cap
      rw [hcapeq]
      exact Nat.mod_lt _ hcappos
    · exact hsize
    · show (l' ++ [x]).length = rb.size
      simp
      omega
    · show (rb.tail + 1) % rb.capacity = ((rb.head + 1) % rb.capacity + rb.size) % cap
      rw [hcapeq, htaileq, Nat.mod_add_mod, hszeq]
      exact (Nat.add_mod_right (rb.head + 1) cap).symm
    · intro i hi
      have hicap : i < cap := by
        have hi' : i < rb.size := hi
        omega
      show (rb.buffer.set rb.tail (some x))[((rb.head + 1) % rb.capacity + i) % cap]? =
        some (l' ++ [x])[i]?
      rw [hcapeq, Nat.mod_add_mod]
      rcases Nat.lt_or_ge (i + 1) cap with hlt | hge
      · -- slot untouched by the overwrite at `tail = head`
        have hne : rb.tail ≠ (rb.head + 1 + i) % cap := by
          rw [htaileq]
          intro hmod
          have hme : rb.head + 0 ≡ rb.head + (1 + i) [MOD cap] := by
            show (rb.head + 0) % cap = (rb.head + (1 + i)) % cap
            have hassoc : rb.head + (1 + i) = rb.head + 1 + i := by omega
            rw [Nat.add_zero, hassoc, ← hmod]
            exact Nat.mod_eq_of_lt hhead
          have h2 : 0 % cap = (1 + i) % cap := Nat.ModEq.add_left_cancel' rb.head hme
          rw [Nat.zero_mod, Nat.mod_eq_of_lt (by omega : 1 + i < cap)] at h2
          omega
        have hstep : rb.head + 1 + i = rb.head + (i + 1) := by omega
        rw [List.getElem?_set_ne hne, hstep, hcont (i + 1) (by omega),
          List.getElem?_cons_succ,
          List.getElem?_append_left (by omega : i < l'.length)]
      · -- the overwritten slot holds the new element, which is the last of `l' ++ [x]`
        have hpos : (rb.head + 1 + i) % cap = rb.tail := by
          rw [htaileq]
          have hstep : rb.head + 1 + i = rb.head + cap := by omega
          rw [hstep, Nat.add_mod_right, Nat.mod_eq_of_lt hhead]
        have htlt : rb.tail < rb.buffer.length := by
          rw [hbuf, htaileq]
          exact hhead
        rw [hpos, List.getElem?_set_self', List.getElem?_eq_getElem htlt]
        have hil : i = l'.length := by omega
        rw [hil, List.getElem?_concat_length]
        rfl

/-- Evaluating the range-indexed reads of a list reproduces the list. -/
theorem filterMap_range_getElem {α : Type} (l : List α) :
    (List.range l.length).filterMap (fun i => l[i]?) = l := by
  induction l with
  | nil => rfl
  | cons a t ih =>
    rw [List.length_cons, List.range_succ_eq_map]
    simp only [List.filterMap_cons, List.getElem?_cons_zero, List.filterMap_map]
    have hcongr : ∀ x ∈ List.range t.length,
        ((fun i => (a :: t)[i]?) ∘ Nat.succ) x = (fun i => t[i]?) x := by
      intro x _
      exact List.getElem?_cons_succ
    rw [List.filterMap_congr hcongr, ih]

/-- Under the coupling invariant, `toArray` returns exactly the abstract
oldest-first contents. -/
theorem ringInv_toArray {α : Type} {cap : Nat} {rb : RingBuffer α} {l : List α}
    (h : RingInv cap rb l) : rb.toArray = l := by
  obtain ⟨hbuf, hcapeq, hhead, hsize, hlen, htail, hcont⟩ := h
  rw [RingBuffer.toArray, hcapeq, ← hlen]
  have hcongr : ∀ i ∈ List.range l.length,
      (rb.buffer[(rb.head + i) % cap]?).getD none = l[i]? := by
    intro i hi
    rw [List.mem_range] at hi
    rw [hcont i (by omega)]
    rfl
  rw [List.filterMap_congr hcongr, filterMap_range_getElem]

theorem ringInv_pushAll {α : Type} {cap : Nat} {rb : RingBuffer α} {l : List α}
    (h : RingInv cap rb l) (xs : List α) :
    RingInv cap (rb.pushAll xs) (xs.foldl (absPush cap) l) := by
  induction xs generalizing rb l with
  | nil => exact h
  | cons x xs ih => exact ih (ringInv_push h x)

/-- Folding the abstract push over a sequence keeps exactly the most recent
`cap` elements, oldest first. -/
theorem foldl_absPush_eq {α : Type} (cap : Nat) (hcap : 0 < cap) :
    ∀ (xs l : List α), l.length ≤ cap →
      xs.foldl (absPush cap) l = (l ++ xs).drop ((l ++ xs).length - cap) := by
  intro xs
  induction xs with
  | nil =>
    intro l hl
    simp only [List.foldl_nil, List.append_nil]
    rw [(by omega : l.length - cap = 0), List.drop_zero]
  | cons x xs ih =>
    intro l hl
    rw [List.foldl_cons]
    by_cases hlt : l.length < cap
    · have h1 : absPush cap l x = l ++ [x] := by
        unfold absPush
        rw [if_pos hlt]
      rw [h1, ih (l ++ [x]) (by simp; omega)]
      have hassoc : l ++ [x] ++ xs = l ++ x :: xs := by simp
      rw [hassoc]
    · have hleq : l.length = cap := by omega
      have h1 : absPush cap l x = l.tail ++ [x] := by
        unfold absPush
        rw [if_neg hlt]
      obtain ⟨a, l', rfl⟩ : ∃ a l', l = a :: l' := by
        cases l with
        | nil => simp at hleq; omega
        | cons a l' => exact ⟨a, l', rfl⟩
      have hl' : l'.length = cap - 1 := by simp at hleq; omega
      rw [h1, ih (List.tail (a :: l') ++ [x]) (by simp [hl']; omega)]
      show (l' ++ [x] ++ xs).drop ((l' ++ [x] ++ xs).length - cap) =
        ((a :: l') ++ x :: xs).drop (((a :: l') ++ x :: xs).length - cap)
      have hd1 : (l' ++ [x] ++ xs).length - cap = xs.length := by simp [hl']; omega
      have hd2 : ((a :: l') ++ x :: xs).length - cap = xs.length + 1 := by simp [hl']; omega
      rw [hd1, hd2]
      show (l' ++ [x] ++ xs).drop xs.length = (a :: (l' ++ x :: xs)).drop (xs.length + 1)
      rw [List.drop_succ_cons]
      have : l' ++ [x] ++ xs = l' ++ x :: xs := by simp
      rw [this]

/-- C2: starting from an empty ring of capacity `cap ≥ 1`, after any sequence
of pushes `snapshot()` (`toArray`) returns exactly the at most `cap` most
recently pushed items, oldest first, and its length never exceeds `cap`.
The snapshot is a fresh list assembled from reads of the buffer, and states in
the embedding are immutable values, so a later `push` produces a new state and
cannot alter a previously taken snapshot. -/
theorem ringBuffer_snapshot_most_recent {α : Type} (cap : Nat) (hcap : 0 < cap) (xs : List α) :
    ((RingBuffer.init α cap).pushAll xs).toArray = xs.drop (xs.length - cap) ∧
    ((RingBuffer.init α cap).pushAll xs).toArray.length ≤ cap := by
  have hinv := ringInv_pushAll (ringInv_init cap hcap) xs
  have habs := foldl_absPush_eq cap hcap xs [] (by simp)
  have h1 : ((RingBuffer.init α cap).pushAll xs).toArray = xs.foldl (absPush cap) [] :=
    ringInv_toArray hinv
  rw [h1, habs]
  constructor
  · simp
  · simp only [List.nil_append, List.length_drop]
    omega

/-- Witness for C2 at a concrete input: capacity 2, three pushes retain the
last two items in order. -/
theorem ringBuffer_snapshot_most_recent_witness :
    0 < 2 ∧ ((RingBuffer.init Nat 2).pushAll [10, 20, 30]).toArray = [20, 30] := by
  have h := ringBuffer_snapshot_most_recent (α := Nat) 2 (by decide) [10, 20, 30]
  exact ⟨by decide, h.1.trans (by decide)⟩

/-! ## Batch Aggregator (`BatchQueue`) -/

/-- The `QueuedReport` of the source: a queued report plus its enqueue time. -/
structure QueuedReport (α : Type) where
  report : α
  timestamp : Nat
deriving DecidableEq

/-- The `BatchQueueConfig` of the source. -/
structure BatchQueueConfig where
  batchSize : Nat
  delay : Nat
  enabled : Bool
deriving DecidableEq

/-- Constructor normalization: `config.batchSize || 10`, `config.delay || 1000`
(a falsy zero falls back to the default), `config.enabled !== false`. -/
def BatchQueueConfig.fromUser (c : BatchQueueConfig) : BatchQueueConfig :=
  { batchSize := if c.batchSize = 0 then 10 else c.batchSize
    delay := if c.delay = 0 then 1000 else c.delay
    enabled := c.enabled }

/-- State of a `BatchQueue` instance together with its timer environment: the
queue and the stored `timerId` are the class fields; `liveTimers` is the host's
set of scheduled-but-not-yet-fired-or-cancelled timeouts (`window.setTimeout`
handles) and `nextTimer` a fresh-handle counter. -/
structure BatchQueueState (α : Type) where
  queue : List (QueuedReport α)
  timerId : Option Nat
  liveTimers : List Nat
  nextTimer : Nat
deriving DecidableEq

/-- A fresh `BatchQueue` (`this.queue = []`, `this.timerId = null`) in a host
with no pending timers. -/
def BatchQueueState.init (α : Type) : BatchQueueState α := ⟨[], none, [], 0⟩

/-- One call handed to the `sender` callback.  `caught = true` when the call
goes through `sendReports`, whose try/catch swallows synchronous throws;
`caught = false` for the direct `this.sender([report])` call in `add` (the
disabled-batching path), which has no handler around it. -/
structure SendCall (α : Type) where
  batch : List α
  caught : Bool
deriving DecidableEq

/-- The `scheduleFlush()`: `if (this.timerId !== null) return;` then
`this.timerId = window.setTimeout(..., delay)`. -/
def BatchQueue.scheduleFlush (s : BatchQueueState α) : BatchQueueState α :=
  match s.timerId with
  | some _ => s
  | none =>
    { s with timerId := some s.nextTimer
             liveTimers := s.liveTimers ++ [s.nextTimer]
             nextTimer := s.nextTimer + 1 }

/-- The `clearTimeout(timerId); timerId = null` prologue of `flush()`. -/
def BatchQueue.clearTimer (s : BatchQueueState α) : BatchQueueState α :=
  match s.timerId with
  | none => s
  | some t => { s with timerId := none, liveTimers := s.liveTimers.erase t }

/-- The `flush()`: cancel any pending timer, return on an empty queue, otherwise
hand the queued reports (in order) to `sendReports` and clear the queue.  (The
source binds the post-`clearTimeout` state once; it is repeated here instead
of `let`-bound, which is observationally identical since `clearTimer` is
pure.) -/
def BatchQueue.flush (s : BatchQueueState α) : BatchQueueState α × List (SendCall α) :=
  if (BatchQueue.clearTimer s).queue.isEmpty then (BatchQueue.clearTimer s, [])
  else ({ BatchQueue.clearTimer s with queue := [] },
    [⟨(BatchQueue.clearTimer s).queue.map (fun qr => qr.report), true⟩])

/-- The `add(report)`: with batching disabled, call the sender directly (no
try/catch); otherwise append a `QueuedReport`, flush immediately once the
queue reaches `batchSize` (`this.queue.length >= batchSize` after the push),
and otherwise make sure a delayed flush is scheduled. -/
def BatchQueue.add (cfg : BatchQueueConfig) (s : BatchQueueState α) (r : α) (now : Nat) :
    BatchQueueState α × List (SendCall α) :=
  if cfg.enabled = false then (s, [⟨[r], false⟩])
  else if cfg.batchSize ≤ (s.queue ++ [(⟨r, now⟩ : QueuedReport α)]).length then
    BatchQueue.flush { s with queue := s.queue ++ [⟨r, now⟩] }
  else (BatchQueue.scheduleFlush { s with queue := s.queue ++ [⟨r, now⟩] }, [])

/-- Run a sequence of `add` calls, accumulating every call handed to the
sender. -/
def BatchQueue.addAll (cfg : BatchQueueConfig) (s : BatchQueueState α) :
    List (α × Nat) → BatchQueueState α × List (SendCall α)
  | [] => (s, [])
  | (r, t) :: rest =>
    ((BatchQueue.addAll cfg (BatchQueue.add cfg s r t).1 rest).1,
      (BatchQueue.add cfg s r t).2 ++ (BatchQueue.addAll cfg (BatchQueue.add cfg s r t).1 rest).2)

theorem scheduleFlush_queue (s : BatchQueueState α) :
    (BatchQueue.scheduleFlush s).queue = s.queue := by
  obtain ⟨q, tid, live, nxt⟩ := s
  cases tid <;> rfl

/-- Below-capacity adds emit nothing and accumulate the queue. -/
theorem addAll_below {α : Type} (cfg : BatchQueueConfig) (hen : cfg.enabled = true) :
    ∀ (items : List (α × Nat)) (s : BatchQueueState α),
      s.queue.length + items.length < cfg.batchSize →
      (BatchQueue.addAll cfg s items).2 = [] ∧
      (BatchQueue.addAll cfg s items).1.queue =
        s.queue ++ items.map (fun p => ⟨p.1, p.2⟩) := by
  intro items
  induction items with
  | nil =>
    intro s _
    exact ⟨rfl, by simp [BatchQueue.addAll]⟩
  | cons it rest ih =>
    intro s h
    obtain ⟨r, t⟩ := it
    have hlen : (s.queue ++ [(⟨r, t⟩ : QueuedReport α)]).length = s.queue.length + 1 := by simp
    have hadd : BatchQueue.add cfg s r t =
        (BatchQueue.scheduleFlush { s with queue := s.queue ++ [⟨r, t⟩] }, []) := by
      rw [BatchQueue.add, if_neg (by rw [hen]; simp)]
      rw [if_neg (by simp at h ⊢; omega)]
    have hq : (BatchQueue.scheduleFlush { s with queue := s.queue ++ [⟨r, t⟩] }).queue =
        s.queue ++ [⟨r, t⟩] := scheduleFlush_queue _
    have hrec := ih (BatchQueue.scheduleFlush { s with queue := s.queue ++ [⟨r, t⟩] })
      (by rw [hq]; simp at h ⊢; omega)
    rw [BatchQueue.addAll, hadd]
    refine ⟨by simpa using hrec.1, ?_⟩
    simp only [hrec.2, hq]
    simp

/-- The add that brings the queue exactly to `batchSize` flushes everything,
in order, and leaves the queue empty. -/
theorem addAll_exact {α : Type} (cfg : BatchQueueConfig) (hen : cfg.enabled = true) :
    ∀ (items : List (α × Nat)) (s : BatchQueueState α), items ≠ [] →
      s.queue.length + items.length = cfg.batchSize →
      (BatchQueue.addAll cfg s items).2 =
        [⟨s.queue.map (·.report) ++ items.map Prod.fst, true⟩] ∧
      (BatchQueue.addAll cfg s items).1.queue = [] := by
  intro items
  induction items with
  | nil => intro s hne _; exact absurd rfl hne
  | cons it rest ih =>
    intro s _ h
    obtain ⟨r, t⟩ := it
    rcases rest with _ | ⟨it2, rest'⟩
    · -- the add that hits batchSize exactly
      have hsz : cfg.batchSize ≤ (s.queue ++ [(⟨r, t⟩ : QueuedReport α)]).length := by
        simp at h ⊢
        omega
      have hadd : BatchQueue.add cfg s r t =
          BatchQueue.flush { s with queue := s.queue ++ [⟨r, t⟩] } := by
        rw [BatchQueue.add, if_neg (by rw [hen]; simp), if_pos hsz]
      have hne2 : (BatchQueue.clearTimer { s with queue := s.queue ++ [⟨r, t⟩] }).queue =
          s.queue ++ [⟨r, t⟩] := by
        obtain ⟨q, tid, live, nxt⟩ := s
        cases tid <;> rfl
      have hflush2 : (BatchQueue.flush { s with queue := s.queue ++ [⟨r, t⟩] }).2 =
          [⟨(s.queue ++ [(⟨r, t⟩ : QueuedReport α)]).map (fun qr => qr.report), true⟩] := by
        rw [BatchQueue.flush, if_neg (by rw [hne2]; simp), hne2]
      have hflush1 : (BatchQueue.flush { s with queue := s.queue ++ [⟨r, t⟩] }).1.queue = [] := by
        rw [BatchQueue.flush, if_neg (by rw [hne2]; simp)]
      rw [BatchQueue.addAll, hadd]
      constructor
      · rw [BatchQueue.addAll]
        show (BatchQueue.flush { s with queue := s.queue ++ [⟨r, t⟩] }).2 ++ [] = _
        rw [hflush2]
        simp
      · rw [BatchQueue.addAll]
        show (BatchQueue.flush { s with queue := s.queue ++ [⟨r, t⟩] }).1.queue = []
        exact hflush1
    · -- an intermediate add: still below batchSize
      have hadd : BatchQueue.add cfg s r t =
          (BatchQueue.scheduleFlush { s with queue := s.queue ++ [⟨r, t⟩] }, []) := by
        rw [BatchQueue.add, if_neg (by rw [hen]; simp)]
        rw [if_neg (by simp at h ⊢; omega)]
      have hq : (BatchQueue.scheduleFlush { s with queue := s.queue ++ [⟨r, t⟩] }).queue =
          s.queue ++ [⟨r, t⟩] := scheduleFlush_queue _
      have hrec := ih (BatchQueue.scheduleFlush { s with queue := s.queue ++ [⟨r, t⟩] })
        (by simp) (by rw [hq]; simp at h ⊢; omega)
      rw [BatchQueue.addAll, hadd]
      refine ⟨?_, hrec.2⟩
      rw [hrec.1, hq]
      simp

/-- C3: with batching enabled and a positive `batchSize`, starting from an
empty queue: adding exactly `batchSize` items triggers exactly one flush whose
batch is all of those items in insertion order and leaves the queue empty;
adding fewer than `batchSize` items triggers no flush and leaves them queued. -/
theorem batchQueue_exact_batch_flush {α : Type} (cfg : BatchQueueConfig)
    (s : BatchQueueState α) (items : List (α × Nat)) (hen : cfg.enabled = true)
    (hbs : 0 < cfg.batchSize) (hq : s.queue = []) :
    (items.length = cfg.batchSize →
      (BatchQueue.addAll cfg s items).2 = [⟨items.map Prod.fst, true⟩] ∧
      (BatchQueue.addAll cfg s items).1.queue = []) ∧
    (items.length < cfg.batchSize →
      (BatchQueue.addAll cfg s items).2 = [] ∧
      (BatchQueue.addAll cfg s items).1.queue = items.map (fun p => ⟨p.1, p.2⟩)) := by
  constructor
  · intro hlen
    have hne : items ≠ [] := by
      intro hnil
      rw [hnil] at hlen
      simp at hlen
      omega
    have h := addAll_exact cfg hen items s hne (by rw [hq]; simpa using hlen)
    rw [hq] at h
    simpa using h
  · intro hlen
    have h := addAll_below cfg hen items s (by rw [hq]; simpa using hlen)
    rw [hq] at h
    simpa using h

/-- Witness for C3: `batchSize = 3`, adds A, B produce no flush; adding C
flushes `[A, B, C]` in order and empties the queue. -/
theorem batchQueue_exact_batch_flush_witness :
    ((BatchQueue.addAll ⟨3, 1000, true⟩ (BatchQueueState.init Nat)
        [(100, 0), (200, 1), (300, 2)]).2 = [⟨[100, 200, 300], true⟩] ∧
      (BatchQueue.addAll ⟨3, 1000, true⟩ (BatchQueueState.init Nat)
        [(100, 0), (200, 1), (300, 2)]).1.queue = []) ∧
    ((BatchQueue.addAll ⟨3, 1000, true⟩ (BatchQueueState.init Nat)
        [(100, 0), (200, 1)]).2 = [] ∧
      (BatchQueue.addAll ⟨3, 1000, true⟩ (BatchQueueState.init Nat)
        [(100, 0), (200, 1)]).1.queue = [⟨100, 0⟩, ⟨200, 1⟩]) := by
  have h1 := (batchQueue_exact_batch_flush ⟨3, 1000, true⟩ (BatchQueueState.init Nat)
    [(100, 0), (200, 1), (300, 2)] rfl (by decide) rfl).1 (by decide)
  have h2 := (batchQueue_exact_batch_flush ⟨3, 1000, true⟩ (BatchQueueState.init Nat)
    [(100, 0), (200, 1)] rfl (by decide) rfl).2 (by decide)
  exact ⟨⟨h1.1.trans (by decide), h1.2⟩, ⟨h2.1, h2.2.trans (by decide)⟩⟩

/-- Externally observable aggregator operations: an `add` call, an external
`flush()` call (page-hide/unload lifecycle trigger), and the firing of a
scheduled timeout (the host removes the timer from its pending set and runs
the `flush` callback; firing an already-cancelled handle is a no-op). -/
inductive BQOp (α : Type) where
  | addOp (r : α) (t : Nat)
  | flushOp
  | fireOp (tid : Nat)

def BQOp.apply (cfg : BatchQueueConfig) (s : BatchQueueState α) : BQOp α → BatchQueueState α
  | .addOp r t => (BatchQueue.add cfg s r t).1
  | .flushOp => (BatchQueue.flush s).1
  | .fireOp tid =>
    if tid ∈ s.liveTimers then
      (BatchQueue.flush { s with liveTimers := s.liveTimers.erase tid }).1
    else s

/-- Run an operation sequence from a fresh aggregator. -/
def BatchQueue.run (cfg : BatchQueueConfig) (ops : List (BQOp α)) : BatchQueueState α :=
  ops.foldl (BQOp.apply cfg) (BatchQueueState.init α)

/-- Timer invariant: either no live timer exists, or exactly one does and
`timerId` references it. -/
def TimerInv (s : BatchQueueState α) : Prop :=
  s.liveTimers = [] ∨ ∃ t, s.liveTimers = [t] ∧ s.timerId = some t

theorem timerInv_init : TimerInv (BatchQueueState.init α) := Or.inl rfl

theorem timerInv_queue (s : BatchQueueState α) (q : List (QueuedReport α))
    (h : TimerInv s) : TimerInv { s with queue := q } := h

theorem timerInv_scheduleFlush {s : BatchQueueState α} (h : TimerInv s) :
    TimerInv (BatchQueue.scheduleFlush s) := by
  obtain ⟨q, tid, live, nxt⟩ := s
  cases tid with
  | none =>
    rcases h with h | ⟨t, _, ht⟩
    · dsimp only at h
      subst h
      exact Or.inr ⟨nxt, rfl, rfl⟩
    · exact absurd ht (by simp)
  | some t0 => exact h

theorem clearTimer_state {s : BatchQueueState α} (h : TimerInv s) :
    (BatchQueue.clearTimer s).liveTimers = [] ∧ (BatchQueue.clearTimer s).timerId = none ∧
      (BatchQueue.clearTimer s).queue = s.queue := by
  obtain ⟨q, tid, live, nxt⟩ := s
  cases tid with
  | none =>
    rcases h with h | ⟨t, _, ht⟩
    · dsimp only at h
      subst h
      exact ⟨rfl, rfl, rfl⟩
    · exact absurd ht (by simp)
  | some t0 =>
    rcases h with h | ⟨t, hl, ht⟩
    · dsimp only at h
      subst h
      exact ⟨rfl, rfl, rfl⟩
    · dsimp only at hl ht
      obtain rfl : t0 = t := by simpa using ht
      subst hl
      refine ⟨?_, rfl, rfl⟩
      show [t0].erase t0 = []
      simp

theorem flush_liveTimers {s : BatchQueueState α} (h : TimerInv s) :
    (BatchQueue.flush s).1.liveTimers = [] := by
  obtain ⟨hl, _, _⟩ := clearTimer_state h
  rw [BatchQueue.flush]
  by_cases he : (BatchQueue.clearTimer s).queue.isEmpty
  · rw [if_pos he]
    exact hl
  · rw [if_neg he]
    exact hl

theorem timerInv_flush {s : BatchQueueState α} (h : TimerInv s) :
    TimerInv (BatchQueue.flush s).1 := Or.inl (flush_liveTimers h)

theorem timerInv_apply (cfg : BatchQueueConfig) {s : BatchQueueState α}
    (h : TimerInv s) (op : BQOp α) : TimerInv (BQOp.apply cfg s op) := by
  cases op with
  | addOp r t =>
    show TimerInv (BatchQueue.add cfg s r t).1
    rw [BatchQueue.add]
    by_cases hen : cfg.enabled = false
    · rw [if_pos hen]
      exact h
    · rw [if_neg hen]
      by_cases hsz : cfg.batchSize ≤ (s.queue ++ [(⟨r, t⟩ : QueuedReport α)]).length
      · rw [if_pos hsz]
        exact timerInv_flush (timerInv_queue s _ h)
      · rw [if_neg hsz]
        exact timerInv_scheduleFlush (timerInv_queue s _ h)
  | flushOp => exact timerInv_flush h
  | fireOp tid =>
    show TimerInv (BQOp.apply cfg s (BQOp.fireOp tid))
    rw [BQOp.apply]
    by_cases hmem : tid ∈ s.liveTimers
    · rw [if_pos hmem]
      refine timerInv_flush ?_
      rcases h with h | ⟨t, hl, ht⟩
      · rw [h] at hmem
        exact absurd hmem (by simp)
      · rw [hl] at hmem
        obtain rfl : tid = t := by simpa using hmem
        left
        show s.liveTimers.erase tid = []
        rw [hl]
        simp
    · rw [if_neg hmem]
      exact h

theorem timerInv_run (cfg : BatchQueueConfig) (ops : List (BQOp α)) :
    TimerInv (BatchQueue.run cfg ops) := by
  rw [BatchQueue.run]
  have hgen : ∀ (l : List (BQOp α)) (s : BatchQueueState α), TimerInv s →
      TimerInv (l.foldl (BQOp.apply cfg) s) := by
    intro l
    induction l with
    | nil => intro s hs; exact hs
    | cons op rest ih =>
      intro s hs
      exact ih _ (timerInv_apply cfg hs op)
  exact hgen ops _ timerInv_init

/-- C9: across any sequence of aggregator operations, at most one delayed
flush timer is ever pending; a `flush` (however triggered) leaves no pending
timer; and `scheduleFlush` is a no-op whenever a `timerId` is already stored,
so an `add` while a delay is pending never schedules a second timer. -/
theorem batchQueue_at_most_one_timer {α : Type} (cfg : BatchQueueConfig)
    (ops : List (BQOp α)) :
    (BatchQueue.run cfg ops).liveTimers.length ≤ 1 ∧
    (BatchQueue.run cfg (ops ++ [BQOp.flushOp])).liveTimers = [] ∧
    (∀ (s : BatchQueueState α) (tid : Nat),
      BatchQueue.scheduleFlush { s with timerId := some tid } =
        { s with timerId := some tid }) := by
  refine ⟨?_, ?_, ?_⟩
  · rcases timerInv_run cfg ops with h | ⟨t, hl, _⟩
    · rw [h]
      decide
    · rw [hl]
      exact le_refl 1
  · rw [BatchQueue.run, List.foldl_append]
    exact flush_liveTimers (timerInv_run cfg ops)
  · intro s tid
    rfl

/-! ## Durable Offline Store (`OfflineCache`) -/

/-- The `CachedReport` of the source: report, timestamp and retryCount. -/
structure CachedReport (α : Type) where
  report : α
  timestamp : Nat
  retryCount : Nat
deriving DecidableEq

/-- The `OfflineCacheConfig` of the source. -/
structure OfflineCacheConfig where
  maxCacheSize : Nat
  enabled : Bool
  storageKey : String
deriving DecidableEq

/-- Constructor normalization: `maxCacheSize || 100` (a falsy zero falls back
to the default), `enabled !== false`, `storageKey || 'error_monitor_cache'`. -/
def OfflineCacheConfig.fromUser (c : OfflineCacheConfig) : OfflineCacheConfig :=
  { maxCacheSize := if c.maxCacheSize = 0 then 100 else c.maxCacheSize
    enabled := c.enabled
    storageKey := if c.storageKey = "" then "error_monitor_cache" else c.storageKey }

/-- State of an `OfflineCache`: the in-memory queue, the connectivity flag,
and the durable storage slot under this instance's `storageKey` (`none` when
nothing has ever been persisted).  localStorage is modelled as available, and
the JSON round-trip as the identity. -/
structure OfflineCacheState (α : Type) where
  cacheQueue : List (CachedReport α)
  isOnline : Bool
  storage : Option (List (CachedReport α))
deriving DecidableEq

/-- The `cache(report)`: no-op when disabled; otherwise wrap with `retryCount = 0`
and the current time, push to the back, `shift()` the oldest entry when
`length > maxCacheSize`, then persist the full queue (`saveToStorage`). -/
def OfflineCache.cache (cfg : OfflineCacheConfig) (s : OfflineCacheState α) (r : α)
    (now : Nat) : OfflineCacheState α :=
  if cfg.enabled = false then s
  else if cfg.maxCacheSize < (s.cacheQueue ++ [(⟨r, now, 0⟩ : CachedReport α)]).length then
    { s with cacheQueue := (s.cacheQueue ++ [(⟨r, now, 0⟩ : CachedReport α)]).tail
             storage := some ((s.cacheQueue ++ [(⟨r, now, 0⟩ : CachedReport α)]).tail) }
  else
    { s with cacheQueue := s.cacheQueue ++ [(⟨r, now, 0⟩ : CachedReport α)]
             storage := some (s.cacheQueue ++ [(⟨r, now, 0⟩ : CachedReport α)]) }

/-- The `send(report)`: online → hand the report to the `sender` (returned in the
first component, to be performed by the caller of the embedding; queue and
storage are untouched); offline → `cache(report)`. -/
def OfflineCache.send (cfg : OfflineCacheConfig) (s : OfflineCacheState α) (r : α)
    (now : Nat) : Option α × OfflineCacheState α :=
  if s.isOnline then (some r, s) else (none, OfflineCache.cache cfg s r now)

/-- The retry loop of `flush()` over (a copy of) the queue; `outcomes i` is the
result of the awaited `sender` call for the `i`-th attempted item (`true` =
delivered, `false` = the sender threw).  Success removes the item from the
live queue; failure increments `retryCount` in place, and removes the item
for good once the count exceeds the hard-coded limit 3
(`if (cachedReport.retryCount > 3)`). -/
def OfflineCache.flushLoop (outcomes : Nat → Bool) : Nat → List (CachedReport α) →
    List (CachedReport α)
  | _, [] => []
  | i, c :: rest =>
    if outcomes i then OfflineCache.flushLoop outcomes (i + 1) rest
    else if 3 < c.retryCount + 1 then OfflineCache.flushLoop outcomes (i + 1) rest
    else ⟨c.report, c.timestamp, c.retryCount + 1⟩ ::
      OfflineCache.flushLoop outcomes (i + 1) rest

/-- The `flush()`: early return on an empty queue; otherwise attempt every cached
report in FIFO order and persist the updated queue once at the end.  Returns
the new state, the reports attempted (in order), and the number of
`saveToStorage` calls made. -/
def OfflineCache.flush (s : OfflineCacheState α) (outcomes : Nat → Bool) :
    OfflineCacheState α × List α × Nat :=
  if s.cacheQueue.isEmpty then (s, [], 0)
  else
    ({ s with cacheQueue := OfflineCache.flushLoop outcomes 0 s.cacheQueue
              storage := some (OfflineCache.flushLoop outcomes 0 s.cacheQueue) },
      s.cacheQueue.map (fun c => c.report), 1)

/-- The `handleOnline()`: set `isOnline = true`, then run one retry pass
(`this.flush()`). -/
def OfflineCache.handleOnline (s : OfflineCacheState α) (outcomes : Nat → Bool) :
    OfflineCacheState α × List α × Nat :=
  OfflineCache.flush { s with isOnline := true } outcomes

/-- The `handleOffline()`: only flips the flag. -/
def OfflineCache.handleOffline (s : OfflineCacheState α) : OfflineCacheState α :=
  { s with isOnline := false }

/-- System-level operations on the store: `cache`, `send`, the connectivity
signals, and a page reload (`restartOp`): a fresh instance whose constructor
reads the connectivity probe and re-loads the persisted queue
(`loadFromStorage`; an absent key leaves the fresh empty queue). -/
inductive OCOp (α : Type) where
  | cacheOp (r : α) (t : Nat)
  | sendOp (r : α) (t : Nat)
  | onlineOp (outcomes : Nat → Bool)
  | offlineOp
  | restartOp (probe : Bool)

def OCOp.apply (cfg : OfflineCacheConfig) (s : OfflineCacheState α) :
    OCOp α → OfflineCacheState α
  | .cacheOp r t => OfflineCache.cache cfg s r t
  | .sendOp r t => (OfflineCache.send cfg s r t).2
  | .onlineOp f => (OfflineCache.handleOnline s f).1
  | .offlineOp => OfflineCache.handleOffline s
  | .restartOp b => { cacheQueue := s.storage.getD [], isOnline := b, storage := s.storage }

/-- Run an operation sequence from a fresh store with empty durable storage. -/
def OfflineCache.run (cfg : OfflineCacheConfig) (probe : Bool) (ops : List (OCOp α)) :
    OfflineCacheState α :=
  ops.foldl (OCOp.apply cfg) ⟨[], probe, none⟩

/-- Bounded-queue invariant: the in-memory queue and any persisted queue hold
at most `maxCacheSize` items. -/
def CacheBound (cfg : OfflineCacheConfig) (s : OfflineCacheState α) : Prop :=
  s.cacheQueue.length ≤ cfg.maxCacheSize ∧
  ∀ q, s.storage = some q → q.length ≤ cfg.maxCacheSize

theorem flushLoop_length {α : Type} (outcomes : Nat → Bool) :
    ∀ (j : Nat) (q : List (CachedReport α)),
      (OfflineCache.flushLoop outcomes j q).length ≤ q.length := by
  intro j q
  induction q generalizing j with
  | nil => exact Nat.le_refl 0
  | cons c rest ih =>
    rw [OfflineCache.flushLoop]
    by_cases h1 : outcomes j
    · rw [if_pos h1]
      exact Nat.le_succ_of_le (ih (j + 1))
    · rw [if_neg h1]
      by_cases h2 : 3 < c.retryCount + 1
      · rw [if_pos h2]
        exact Nat.le_succ_of_le (ih (j + 1))
      · rw [if_neg h2]
        simpa using ih (j + 1)

theorem cacheBound_cache {α : Type} {cfg : OfflineCacheConfig} {s : OfflineCacheState α}
    (h : CacheBound cfg s) (r : α) (t : Nat) :
    CacheBound cfg (OfflineCache.cache cfg s r t) := by
  obtain ⟨hq, hs⟩ := h
  rw [OfflineCache.cache]
  by_cases hen : cfg.enabled = false
  · rw [if_pos hen]
    exact ⟨hq, hs⟩
  · rw [if_neg hen]
    by_cases hover : cfg.maxCacheSize < (s.cacheQueue ++ [(⟨r, t, 0⟩ : CachedReport α)]).length
    · rw [if_pos hover]
      constructor
      · show ((s.cacheQueue ++ [(⟨r, t, 0⟩ : CachedReport α)]).tail).length ≤ cfg.maxCacheSize
        rw [List.length_tail]
        simp
        omega
      · intro q hsome
        have h3 : (s.cacheQueue ++ [(⟨r, t, 0⟩ : CachedReport α)]).tail = q := by
          simpa using hsome
        rw [← h3, List.length_tail]
        simp
        omega
    · rw [if_neg hover]
      constructor
      · show (s.cacheQueue ++ [(⟨r, t, 0⟩ : CachedReport α)]).length ≤ cfg.maxCacheSize
        simp at hover ⊢
        omega
      · intro q hsome
        have h3 : s.cacheQueue ++ [(⟨r, t, 0⟩ : CachedReport α)] = q := by simpa using hsome
        rw [← h3]
        simp at hover ⊢
        omega

theorem cacheBound_flush {α : Type} {cfg : OfflineCacheConfig} {s : OfflineCacheState α}
    (h : CacheBound cfg s) (outcomes : Nat → Bool) :
    CacheBound cfg (OfflineCache.flush s outcomes).1 := by
  obtain ⟨hq, hs⟩ := h
  rw [OfflineCache.flush]
  by_cases he : s.cacheQueue.isEmpty
  · rw [if_pos he]
    exact ⟨hq, hs⟩
  · rw [if_neg he]
    have hlen := flushLoop_length (α := α) outcomes 0 s.cacheQueue
    constructor
    · show (OfflineCache.flushLoop outcomes 0 s.cacheQueue).length ≤ cfg.maxCacheSize
      omega
    · intro q hsome
      have h3 : OfflineCache.flushLoop outcomes 0 s.cacheQueue = q := by simpa using hsome
      rw [← h3]
      omega

theorem cacheBound_apply {α : Type} (cfg : OfflineCacheConfig) {s : OfflineCacheState α}
    (h : CacheBound cfg s) (op : OCOp α) : CacheBound cfg (OCOp.apply cfg s op) := by
  cases op with
  | cacheOp r t => exact cacheBound_cache h r t
  | sendOp r t =>
    show CacheBound cfg (OfflineCache.send cfg s r t).2
    rw [OfflineCache.send]
    by_cases hon : s.isOnline
    · rw [if_pos hon]
      exact h
    · rw [if_neg hon]
      exact cacheBound_cache h r t
  | onlineOp f =>
    show CacheBound cfg (OfflineCache.handleOnline s f).1
    exact cacheBound_flush (s := { s with isOnline := true }) h f
  | offlineOp => exact h
  | restartOp b =>
    obtain ⟨hq, hs⟩ := h
    constructor
    · show (s.storage.getD []).length ≤ cfg.maxCacheSize
      cases hst : s.storage with
      | none => simp
      | some q => simpa using hs q hst
    · intro q hsome
      exact hs q hsome

theorem cacheBound_run {α : Type} (cfg : OfflineCacheConfig) (probe : Bool)
    (ops : List (OCOp α)) : CacheBound cfg (OfflineCache.run cfg probe ops) := by
  rw [OfflineCache.run]
  have hgen : ∀ (l : List (OCOp α)) (s : OfflineCacheState α), CacheBound cfg s →
      CacheBound cfg (l.foldl (OCOp.apply cfg) s) := by
    intro l
    induction l with
    | nil => intro s hs; exact hs
    | cons op rest ih =>
      intro s hs
      exact ih _ (cacheBound_apply cfg hs op)
  exact hgen ops _ ⟨by simp, by intro q hsome; simp at hsome⟩

/-- C6: over every sequence of store operations (including reload/recovery
from storage) the cached queue and every persisted queue hold at most
`maxCacheSize` items; an (enabled) `cache` call appends the new item with
`retryCount = 0`, evicts exactly the oldest item when the queue is full, and
persists the full updated queue synchronously. -/
theorem offlineCache_bounded_fifo {α : Type} (cfg : OfflineCacheConfig) (probe : Bool)
    (ops : List (OCOp α)) (s : OfflineCacheState α) (r : α) (t : Nat)
    (hen : cfg.enabled = true) (hbound : s.cacheQueue.length ≤ cfg.maxCacheSize) :
    (OfflineCache.run cfg probe ops).cacheQueue.length ≤ cfg.maxCacheSize ∧
    (∀ q, (OfflineCache.run cfg probe ops).storage = some q →
      q.length ≤ cfg.maxCacheSize) ∧
    (OfflineCache.cache cfg s r t).cacheQueue =
      (if s.cacheQueue.length = cfg.maxCacheSize
        then (s.cacheQueue ++ [(⟨r, t, 0⟩ : CachedReport α)]).tail
        else s.cacheQueue ++ [(⟨r, t, 0⟩ : CachedReport α)]) ∧
    (OfflineCache.cache cfg s r t).storage =
      some (OfflineCache.cache cfg s r t).cacheQueue := by
  obtain ⟨hrun1, hrun2⟩ := cacheBound_run (α := α) cfg probe ops
  refine ⟨hrun1, hrun2, ?_, ?_⟩
  · rw [OfflineCache.cache, if_neg (by rw [hen]; simp)]
    by_cases hover :
        cfg.maxCacheSize < (s.cacheQueue ++ [(⟨r, t, 0⟩ : CachedReport α)]).length
    · rw [if_pos hover, if_pos (by simp at hover; omega)]
    · rw [if_neg hover, if_neg (by simp at hover; omega)]
  · rw [OfflineCache.cache, if_neg (by rw [hen]; simp)]
    by_cases hover :
        cfg.maxCacheSize < (s.cacheQueue ++ [(⟨r, t, 0⟩ : CachedReport α)]).length
    · rw [if_pos hover]
    · rw [if_neg hover]

/-- Witness for C6 at concrete inputs: `maxCacheSize = 2`, caching X, Y, Z
while offline retains `[Y, Z]` (X evicted) and persists it. -/
theorem offlineCache_bounded_fifo_witness :
    (OfflineCache.run (α := Nat) ⟨2, true, "k"⟩ false
      [OCOp.cacheOp 10 0, OCOp.cacheOp 20 1, OCOp.cacheOp 30 2]).cacheQueue.length ≤ 2 ∧
    (OfflineCache.cache (α := Nat) ⟨2, true, "k"⟩ ⟨[⟨10, 0, 0⟩, ⟨20, 1, 0⟩], false, none⟩
      30 2).cacheQueue = [⟨20, 1, 0⟩, ⟨30, 2, 0⟩] ∧
    (OfflineCache.cache (α := Nat) ⟨2, true, "k"⟩ ⟨[⟨10, 0, 0⟩, ⟨20, 1, 0⟩], false, none⟩
      30 2).storage = some [⟨20, 1, 0⟩, ⟨30, 2, 0⟩] := by
  have h := offlineCache_bounded_fifo (α := Nat) ⟨2, true, "k"⟩ false
    [OCOp.cacheOp 10 0, OCOp.cacheOp 20 1, OCOp.cacheOp 30 2]
    ⟨[⟨10, 0, 0⟩, ⟨20, 1, 0⟩], false, none⟩ 30 2 rfl (by decide)
  refine ⟨h.1, ?_, ?_⟩
  · rw [h.2.2.1]
    decide
  · rw [h.2.2.2, h.2.2.1]
    decide

/-- C7: while online, `send` delegates the report to the Transport sender and
leaves the in-memory queue, the persisted storage, and the whole state
unchanged; while offline, `send` does not touch the sender and instead caches
the item (appended with `retryCount = 0`, oldest evicted on overflow, full
queue persisted). -/
theorem offlineCache_send_online_offline {α : Type} (cfg : OfflineCacheConfig)
    (s : OfflineCacheState α) (r : α) (t : Nat) :
    OfflineCache.send cfg { s with isOnline := true } r t =
      (some r, { s with isOnline := true }) ∧
    (OfflineCache.send { cfg with enabled := true } { s with isOnline := false } r t).1 =
      none ∧
    (OfflineCache.send { cfg with enabled := true } { s with isOnline := false } r t).2 =
      OfflineCache.cache { cfg with enabled := true } { s with isOnline := false } r t ∧
    (OfflineCache.cache { cfg with enabled := true } { s with isOnline := false } r
      t).cacheQueue =
      (if cfg.maxCacheSize < s.cacheQueue.length + 1
        then (s.cacheQueue ++ [(⟨r, t, 0⟩ : CachedReport α)]).tail
        else s.cacheQueue ++ [(⟨r, t, 0⟩ : CachedReport α)]) ∧
    (OfflineCache.cache { cfg with enabled := true } { s with isOnline := false } r
      t).storage =
      some (OfflineCache.cache { cfg with enabled := true } { s with isOnline := false } r
        t).cacheQueue := by
  refine ⟨rfl, rfl, rfl, ?_, ?_⟩
  · rw [OfflineCache.cache, if_neg (by simp)]
    by_cases hover : cfg.maxCacheSize <
        (s.cacheQueue ++ [(⟨r, t, 0⟩ : CachedReport α)]).length
    · rw [if_pos (by simpa using hover), if_pos (by simp at hover ⊢; omega)]
    · rw [if_neg (by simpa using hover), if_neg (by simp at hover ⊢; omega)]
  · rw [OfflineCache.cache, if_neg (by simp)]
    by_cases hover : cfg.maxCacheSize <
        (s.cacheQueue ++ [(⟨r, t, 0⟩ : CachedReport α)]).length
    · rw [if_pos (by simpa using hover)]
    · rw [if_neg (by simpa using hover)]

theorem filterMap_cons_toList {α β : Type} (f : α → Option β) (a : α) (l : List α) :
    (a :: l).filterMap f = (f a).toList ++ l.filterMap f := by
  cases hfa : f a with
  | none => simp [List.filterMap_cons, hfa]
  | some b => simp [List.filterMap_cons, hfa]

/-- The retry loop, characterized item by item: position `i` of the processed
queue survives the pass exactly when its attempt failed and the incremented
`retryCount` is still at most 3, in which case it survives with the count
incremented; successes and items past the limit are removed. -/
theorem flushLoop_characterization {α : Type} (outcomes : Nat → Bool) :
    ∀ (q : List (CachedReport α)) (j : Nat),
      OfflineCache.flushLoop outcomes j q =
        (List.range q.length).filterMap (fun i =>
          (q[i]?).bind (fun c =>
            if outcomes (j + i) then none
            else if 3 < c.retryCount + 1 then none
            else some (⟨c.report, c.timestamp, c.retryCount + 1⟩ : CachedReport α))) := by
  intro q
  induction q with
  | nil => intro j; rfl
  | cons c rest ih =>
    intro j
    rw [List.length_cons, List.range_succ_eq_map, filterMap_cons_toList, List.filterMap_map]
    have hshift : ∀ i ∈ List.range rest.length,
        ((fun i => ((c :: rest)[i]?).bind (fun cc =>
            if outcomes (j + i) then none
            else if 3 < cc.retryCount + 1 then none
            else some (⟨cc.report, cc.timestamp, cc.retryCount + 1⟩ : CachedReport α))) ∘ Nat.succ) i =
        (rest[i]?).bind (fun cc =>
            if outcomes (j + 1 + i) then none
            else if 3 < cc.retryCount + 1 then none
            else some (⟨cc.report, cc.timestamp, cc.retryCount + 1⟩ : CachedReport α)) := by
      intro i _
      simp only [Function.comp_apply, Nat.succ_eq_add_one, List.getElem?_cons_succ]
      have harith : j + (i + 1) = j + 1 + i := by omega
      rw [harith]
    rw [List.filterMap_congr hshift, ← ih (j + 1)]
    simp only [List.getElem?_cons_zero, Option.some_bind, Nat.add_zero]
    by_cases h1 : outcomes j = true
    · simp [OfflineCache.flushLoop, h1]
    · by_cases h2 : 3 < c.retryCount + 1
      · simp [OfflineCache.flushLoop, h1, h2]
      · simp [OfflineCache.flushLoop, h1, h2]

/-- Modelled from the spec: the retry accounting with a configurable
`maxRetries` bound, following "failure → increment `retryCount`; if
`retryCount > maxRetries`, remove and log a permanent-drop; else leave in
queue for the next pass". -/
def flushLoopSpec (maxRetries : Nat) (outcomes : Nat → Bool) :
    Nat → List (CachedReport α) → List (CachedReport α)
  | _, [] => []
  | i, c :: rest =>
    if outcomes i then flushLoopSpec maxRetries outcomes (i + 1) rest
    else if maxRetries < c.retryCount + 1 then flushLoopSpec maxRetries outcomes (i + 1) rest
    else ⟨c.report, c.timestamp, c.retryCount + 1⟩ ::
      flushLoopSpec maxRetries outcomes (i + 1) rest

/-- C4 counterexample: the drop threshold of the code is the hard-coded
constant 3, not the configured `maxRetries` (the store's configuration has no
such field).  With configured `maxRetries = 0` and a single cached item whose
attempt fails, the claim requires the item to be removed (its incremented
`retryCount` 1 exceeds 0), but the code retains it with `retryCount = 1`. -/
theorem offlineCache_maxRetries_not_configured :
    OfflineCache.flushLoop (α := Nat) (fun _ => false) 0 [⟨7, 0, 0⟩] = [⟨7, 0, 1⟩] ∧
    flushLoopSpec (α := Nat) 0 (fun _ => false) 0 [⟨7, 0, 0⟩] = [] ∧
    ([(⟨7, 0, 1⟩ : CachedReport Nat)] : List (CachedReport Nat)) ≠ [] := by
  refine ⟨by decide, by decide, by decide⟩

/-- C4 (amended): during a retry pass every item is attempted in order;
a failed item has its `retryCount` incremented by one and is removed
permanently exactly when the incremented count exceeds the fixed limit 3
(so it is dropped on its 4th consecutive failure, matching the default
`maxRetries = 3`; the limit is not configurable); otherwise it stays for the
next pass; successfully sent items are removed.  A removed item is absent
from the resulting queue, and a later pass attempts only the current queue,
so it is never attempted again. -/
theorem offlineCache_retry_accounting {α : Type} (q : List (CachedReport α))
    (outcomes : Nat → Bool) (j : Nat) (s : OfflineCacheState α) :
    OfflineCache.flushLoop outcomes j q =
      (List.range q.length).filterMap (fun i =>
        (q[i]?).bind (fun c =>
          if outcomes (j + i) then none
          else if 3 < c.retryCount + 1 then none
          else some (⟨c.report, c.timestamp, c.retryCount + 1⟩ : CachedReport α))) ∧
    (OfflineCache.flush s outcomes).2.1 = s.cacheQueue.map (fun c => c.report) ∧
    (OfflineCache.flush s outcomes).1.cacheQueue =
      (if s.cacheQueue.isEmpty then s.cacheQueue
       else OfflineCache.flushLoop outcomes 0 s.cacheQueue) := by
  refine ⟨flushLoop_characterization outcomes q j, ?_, ?_⟩
  · rw [OfflineCache.flush]
    by_cases he : s.cacheQueue.isEmpty
    · rw [if_pos he]
      have : s.cacheQueue = [] := List.isEmpty_iff.mp he
      rw [this]
      rfl
    · rw [if_neg he]
  · rw [OfflineCache.flush]
    by_cases he : s.cacheQueue.isEmpty
    · rw [if_pos he, if_pos he]
    · rw [if_neg he, if_neg he]

/-- C8 counterexample: a connectivity-restored signal received while offline
with an empty cached queue persists nothing at all (the retry pass
early-returns before `saveToStorage`), not "exactly once". -/
theorem offlineCache_online_empty_no_persist :
    (OfflineCache.handleOnline (α := Nat) ⟨[], false, none⟩ (fun _ => false)).2.2 = 0 ∧
    (0 : Nat) ≠ 1 := ⟨rfl, by decide⟩

/-- C8 (amended): a connectivity-restored signal sets the state to online and
triggers exactly one retry pass (`handleOnline` is precisely
`flush` after setting the flag), which attempts exactly the cached reports in
FIFO oldest-cached-first order; when the queue is nonempty the pass persists
the updated queue exactly once at the end (an empty queue early-returns with
no persist); a connectivity-lost signal only flips the flag and changes
nothing else. -/
theorem offlineCache_connectivity_transitions {α : Type} (s : OfflineCacheState α)
    (outcomes : Nat → Bool) :
    (OfflineCache.handleOnline s outcomes).1.isOnline = true ∧
    (OfflineCache.handleOnline s outcomes).2.1 =
      s.cacheQueue.map (fun c => c.report) ∧
    (s.cacheQueue ≠ [] →
      (OfflineCache.handleOnline s outcomes).2.2 = 1 ∧
      (OfflineCache.handleOnline s outcomes).1.storage =
        some (OfflineCache.handleOnline s outcomes).1.cacheQueue) ∧
    (s.cacheQueue = [] → (OfflineCache.handleOnline s outcomes).2.2 = 0) ∧
    OfflineCache.handleOffline s = { s with isOnline := false } := by
  have hq : ({ s with isOnline := true } : OfflineCacheState α).cacheQueue = s.cacheQueue :=
    rfl
  refine ⟨?_, ?_, ?_, ?_, rfl⟩
  · rw [OfflineCache.handleOnline, OfflineCache.flush]
    by_cases he : ({ s with isOnline := true } : OfflineCacheState α).cacheQueue.isEmpty
    · rw [if_pos he]
    · rw [if_neg he]
  · rw [OfflineCache.handleOnline, OfflineCache.flush]
    by_cases he : ({ s with isOnline := true } : OfflineCacheState α).cacheQueue.isEmpty
    · rw [if_pos he]
      have : s.cacheQueue = [] := List.isEmpty_iff.mp (by rw [← hq]; exact he)
      rw [this]
      rfl
    · rw [if_neg he]
  · intro hne
    rw [OfflineCache.handleOnline, OfflineCache.flush]
    rw [if_neg (by rw [hq]; simpa using hne)]
    exact ⟨rfl, rfl⟩
  · intro hemp
    rw [OfflineCache.handleOnline, OfflineCache.flush]
    rw [if_pos (by rw [hq, hemp]; rfl)]

/-- Witness for the C8 amended theorem: one offline-cached item, connectivity
restored, the failing attempt is retried and the queue persisted once. -/
theorem offlineCache_connectivity_transitions_witness :
    (OfflineCache.handleOnline (α := Nat) ⟨[⟨5, 0, 0⟩], false, none⟩
      (fun _ => false)).1.isOnline = true ∧
    (OfflineCache.handleOnline (α := Nat) ⟨[⟨5, 0, 0⟩], false, none⟩
      (fun _ => false)).2.1 = [5] ∧
    (OfflineCache.handleOnline (α := Nat) ⟨[⟨5, 0, 0⟩], false, none⟩
      (fun _ => false)).2.2 = 1 := by
  have h := offlineCache_connectivity_transitions (α := Nat) ⟨[⟨5, 0, 0⟩], false, none⟩
    (fun _ => false)
  exact ⟨h.1, h.2.1.trans (by decide), (h.2.2.1 (by decide)).1⟩

/-! ## Capture Orchestrator (`ErrorMonitor`) -/

/-- A loose JS object of string-valued entries (used for `tags`, `extra` and
`ErrorType.context`). -/
abbrev Obj := List (String × String)

/-- Object spread `{ ...a, ...b }`: entries of `b` override entries of `a`.
(The key order differs from V8's insertion order, which no claim observes.) -/
def spreadObj (a b : Obj) : Obj :=
  a.filter (fun p => !(b.any (fun q => q.1 == p.1))) ++ b

/-- Read a key from a loose object; the last entry for the key wins. -/
def lookupObj (o : Obj) (k : String) : Option String :=
  (o.reverse.find? (fun p => p.1 == k)).map (fun p => p.2)

/-- JS `a || b` on optional strings: `undefined` and the empty string are
falsy. -/
def jsOrString (a : Option String) (b : Option String) : Option String :=
  match a with
  | some s => if s = "" then b else some s
  | none => b

/-- The `Breadcrumb` of the source. -/
structure Breadcrumb where
  timestamp : Nat
  type : String
  message : String
  data : Option Obj

/-- The `ErrorType` of the source: a normalized raw event. -/
structure ErrorType where
  type : String
  message : String
  stack : Option String
  context : Option Obj

/-- The `ErrorReport.context` of the source. -/
structure ReportContext where
  userAgent : String
  url : String
  viewportWidth : Nat
  viewportHeight : Nat
  userId : Option String
  tags : Obj

/-- The `ErrorReport` of the source. -/
structure ErrorReport where
  appId : String
  timestamp : Nat
  sessionId : String
  eventId : String
  type : String
  level : String
  message : String
  stack : Option String
  context : ReportContext
  breadcrumbs : List Breadcrumb
  extra : Obj

/-- Outbound wire payload: a single report or a `{ reports }` batch. -/
inductive Payload where
  | single (r : ErrorReport)
  | batch (rs : List ErrorReport)

/-- The `Config.filter` of the source; `RegExp` patterns are modelled as string
predicates (`pattern.test`). -/
structure FilterConfig where
  ignoreErrors : Option (List (String → Bool))
  ignoreUrls : Option (List (String → Bool))
  minLevel : Option String

/-- The `Config.report` of the source.  `customReporter` may throw synchronously
(`Except.error`). -/
structure ReportConfig where
  delay : Nat
  batchSize : Nat
  customReporter : Option (Payload → Except Unit Unit)

/-- The `Config` of the source (the fields the pipeline reads), after constructor
defaulting.  `errorSampleRate` stays optional because an explicit
user-supplied `undefined` survives the defaulting spread and disables the
sampling check; `filter`/`report` stay optional for the same reason. -/
structure Config where
  appId : String
  dsn : String
  userId : Option String
  tags : Obj
  sampleRate : Option Rat
  errorSampleRate : Option Rat
  filter : Option FilterConfig
  report : Option ReportConfig
  debug : Bool
  enabled : Bool

/-- The `Plugin` of the source: optional hooks, each of which may throw
synchronously (`Except.error`).  `beforeCapture` returns `none` for the
`null` veto; `afterCapture`/`beforeReport` return `none` for a `void` return
(keep the current report) and `some r` for a returned report (which
`Object.assign`/reassignment makes the new working report). -/
structure Plugin where
  name : String
  beforeCapture : Option (ErrorType → Except Unit (Option ErrorType))
  afterCapture : Option (ErrorReport → Except Unit (Option ErrorReport))
  beforeReport : Option (ErrorReport → Except Unit (Option ErrorReport))

/-- The ambient browser environment for one pipeline entry: the resolved
globals (`navigator.userAgent`, `location.href`, the viewport — already
defaulted to `""`/`0` when the globals are absent), `Date.now()`, the
generated event id, the `Math.random()` draw, and the transport primitive
(`navigator.sendBeacon`), which may throw synchronously.  The `fetch`
fallback attaches a `.catch` handler and cannot throw synchronously, so it
needs no failure channel. -/
structure Env where
  userAgent : String
  url : String
  viewportWidth : Nat
  viewportHeight : Nat
  now : Nat
  eventId : String
  randomDraw : Rat
  navigatorDefined : Bool
  sendBeaconAvailable : Bool
  beacon : Payload → Except Unit Unit

/-- The `ErrorMonitor` instance state read and written by the capture
pipeline.  The constructor always creates the offline cache; the batch queue
exists exactly when `config.report` is truthy. -/
structure Monitor where
  config : Config
  isInitialized : Bool
  sessionId : String
  breadcrumbs : RingBuffer Breadcrumb
  plugins : List Plugin
  batchQueue : Option (BatchQueueConfig × BatchQueueState ErrorReport)
  offlineCache : OfflineCacheConfig × OfflineCacheState ErrorReport

/-- The `shouldFilter(error)`: the message against `ignoreErrors`, then the
context URL (when present and truthy) against `ignoreUrls`.  `minLevel` is
destructured by the source but never used. -/
def shouldFilter (cfg : Config) (error : ErrorType) : Bool :=
  match cfg.filter with
  | none => false
  | some f =>
    if (match f.ignoreErrors with
        | some pats => pats.any (fun p => p error.message)
        | none => false) then true
    else
      match f.ignoreUrls, error.context.bind (fun ctx => lookupObj ctx "url") with
      | some pats, some url => if url = "" then false else pats.any (fun p => p url)
      | some _, none => false
      | none, _ => false

/-- The sampling check: drop when `Math.random() > errorSampleRate` (skipped
entirely when the rate is `undefined`). -/
def sampledOut (cfg : Config) (env : Env) : Bool :=
  match cfg.errorSampleRate with
  | some rate => decide (rate < env.randomDraw)
  | none => false

/-- The `CaptureOptions` of the source (the fields `capture` reads); a `none`
field is absent and takes the default of the `Required<CaptureOptions>`
merge.  `userId` is the nested `user.id` (outer `none` = no `user` object). -/
structure CaptureOptions where
  level : Option String
  tags : Option Obj
  extra : Option Obj
  userId : Option (Option String)
  skipSampling : Option Bool
  skipFilter : Option Bool

/-- The `Required<CaptureOptions>` merge `{ level: 'error', tags: {}, ... ,
...options }`. -/
structure ResolvedOptions where
  level : String
  tags : Obj
  extra : Obj
  userId : Option String
  skipSampling : Bool
  skipFilter : Bool

def resolveOptions : Option CaptureOptions → ResolvedOptions
  | none => ⟨"error", [], [], none, false, false⟩
  | some o =>
    ⟨o.level.getD "error", o.tags.getD [], o.extra.getD [],
      o.userId.getD none, o.skipSampling.getD false, o.skipFilter.getD false⟩

/-- The argument of `capture`: a structured `ErrorType` or a JS `Error`
instance. -/
inductive CaptureInput where
  | event (e : ErrorType)
  | jsError (message : String) (stack : Option String)

/-- Normalization in `capture`: an `Error` instance is coerced to a
`custom`-typed event with empty context; a structured event passes through. -/
def normalizeInput : CaptureInput → ErrorType
  | .event e => e
  | .jsError msg stack => ⟨"custom", msg, stack, some []⟩

/-- The `beforeCapture` loop of `capture`.  Note: the source invokes every
hook on `normalizedError` — the original normalized event — while only
accumulating the last non-`undefined` result in `processedError`
(`plugin.beforeCapture?.(normalizedError)`); a `null` result vetoes. -/
def beforeCaptureLoop (normalizedError : ErrorType) :
    List Plugin → ErrorType → Except Unit (Option ErrorType)
  | [], processed => .ok (some processed)
  | p :: rest, processed =>
    match p.beforeCapture with
    | none => beforeCaptureLoop normalizedError rest processed
    | some hook =>
      match hook normalizedError with
      | .error e => .error e
      | .ok none => .ok none
      | .ok (some result) => beforeCaptureLoop normalizedError rest result

/-- The `afterCapture` loop: each hook receives the current working report
(`Object.assign(report, result)` updates it in place between hooks). -/
def afterCaptureLoop : List Plugin → ErrorReport → Except Unit ErrorReport
  | [], report => .ok report
  | p :: rest, report =>
    match p.afterCapture with
    | none => afterCaptureLoop rest report
    | some hook =>
      match hook report with
      | .error e => .error e
      | .ok none => afterCaptureLoop rest report
      | .ok (some result) => afterCaptureLoop rest result

/-- The `beforeReport` loop of `report`: like `beforeCapture`, every hook is
invoked on the original `data` argument while the last non-`undefined`
result accumulates in `processedReport`. -/
def beforeReportLoop (data : ErrorReport) :
    List Plugin → ErrorReport → Except Unit ErrorReport
  | [], processed => .ok processed
  | p :: rest, processed =>
    match p.beforeReport with
    | none => beforeReportLoop data rest processed
    | some hook =>
      match hook data with
      | .error e => .error e
      | .ok none => beforeReportLoop data rest processed
      | .ok (some result) => beforeReportLoop data rest result

/-- The shared default transport tail of `sendToServerDirectly` /
`sendBatchToServer`: no-op without `navigator`; `sendBeacon` when available
(may throw); otherwise `fetch(...).catch(...)`, which reports asynchronous
failures to the logger and throws nothing synchronously. -/
def defaultTransport (env : Env) (p : Payload) : Except Unit Unit :=
  if env.navigatorDefined = false then .ok ()
  else if env.sendBeaconAvailable then env.beacon p
  else .ok ()

/-- The `sendToServerDirectly(data)`: the configured `customReporter` if any
(called with no try/catch around it), else the default transport. -/
def sendToServerDirectly (cfg : Config) (env : Env) (data : ErrorReport) :
    Except Unit Unit :=
  match cfg.report with
  | some rc =>
    match rc.customReporter with
    | some f => f (Payload.single data)
    | none => defaultTransport env (Payload.single data)
  | none => defaultTransport env (Payload.single data)

/-- The `sendBatchToServer(reports)`: like `sendToServerDirectly` with the
`{ reports }` batch payload. -/
def sendBatchToServer (cfg : Config) (env : Env) (reports : List ErrorReport) :
    Except Unit Unit :=
  match cfg.report with
  | some rc =>
    match rc.customReporter with
    | some f => f (Payload.batch reports)
    | none => defaultTransport env (Payload.batch reports)
  | none => defaultTransport env (Payload.batch reports)

/-- Perform the sender calls recorded by the batch queue.  A call marked
`caught` runs inside `sendReports`, whose try/catch logs and swallows a
synchronous throw; an uncaught call propagates it. -/
def runSendCalls (cfg : Config) (env : Env) : List (SendCall ErrorReport) →
    Except Unit Unit
  | [] => .ok ()
  | c :: rest =>
    if c.caught then
      match sendBatchToServer cfg env c.batch with
      | _ => runSendCalls cfg env rest
    else
      match sendBatchToServer cfg env c.batch with
      | .error e => .error e
      | .ok _ => runSendCalls cfg env rest

/-- Building the `ErrorReport` in `capture` (step 6): identifiers, context,
a fresh breadcrumb snapshot, and the caller-supplied options merged in. -/
def buildReport (env : Env) (m : Monitor) (opts : ResolvedOptions)
    (processedError : ErrorType) : ErrorReport :=
  { appId := m.config.appId
    timestamp := env.now
    sessionId := m.sessionId
    eventId := env.eventId
    type := processedError.type
    level := opts.level
    message := processedError.message
    stack := processedError.stack
    context :=
      { userAgent := env.userAgent
        url := env.url
        viewportWidth := env.viewportWidth
        viewportHeight := env.viewportHeight
        userId := jsOrString opts.userId m.config.userId
        tags := spreadObj m.config.tags opts.tags }
    breadcrumbs := m.breadcrumbs.toArray
    extra := spreadObj (processedError.context.getD []) opts.extra }

/-- The `report(data)`: run the `beforeReport` hooks, then hand the processed
report to the batch queue when one exists, else to `sendToServer` — the
offline cache, whose online path calls `sendToServerDirectly` with no
try/catch around it. -/
def Monitor.report (env : Env) (m : Monitor) (data : ErrorReport) :
    Except Unit Monitor :=
  match beforeReportLoop data m.plugins data with
  | .error e => .error e
  | .ok processedReport =>
    match m.batchQueue with
    | some (bcfg, bs) =>
      match runSendCalls m.config env (BatchQueue.add bcfg bs processedReport env.now).2 with
      | .error e => .error e
      | .ok _ =>
        .ok { m with batchQueue := some (bcfg, (BatchQueue.add bcfg bs processedReport env.now).1) }
    | none =>
      match (OfflineCache.send m.offlineCache.1 m.offlineCache.2 processedReport env.now).1 with
      | some r =>
        match sendToServerDirectly m.config env r with
        | .error e => .error e
        | .ok _ =>
          .ok { m with offlineCache := (m.offlineCache.1, (OfflineCache.send m.offlineCache.1 m.offlineCache.2 processedReport env.now).2) }
      | none =>
        .ok { m with offlineCache := (m.offlineCache.1, (OfflineCache.send m.offlineCache.1 m.offlineCache.2 processedReport env.now).2) }

/-- The `capture(error, options)`: the full pipeline — initialization and enabled
checks, normalization, filter, sampling, `beforeCapture` hooks, report
assembly, `afterCapture` hooks, then `report`. -/
def Monitor.capture (env : Env) (m : Monitor) (input : CaptureInput)
    (options : Option CaptureOptions) : Except Unit Monitor :=
  if m.isInitialized = false then .ok m
  else if m.config.enabled = false then .ok m
  else if (!(resolveOptions options).skipFilter &&
      shouldFilter m.config (normalizeInput input)) = true then .ok m
  else if (!(resolveOptions options).skipSampling && sampledOut m.config env) = true then
    .ok m
  else
    match beforeCaptureLoop (normalizeInput input) m.plugins (normalizeInput input) with
    | .error e => .error e
    | .ok none => .ok m
    | .ok (some processedError) =>
      match afterCaptureLoop m.plugins
          (buildReport env m (resolveOptions options) processedError) with
      | .error e => .error e
      | .ok finalReport => Monitor.report env m finalReport

/-- The `captureError(error, options)`: delegates to `capture`. -/
def Monitor.captureError (env : Env) (m : Monitor) (message : String)
    (stack : Option String) (options : Option CaptureOptions) : Except Unit Monitor :=
  Monitor.capture env m (.jsError message stack) options

/-- The `captureMessage(message, level, options)`: a `custom` event with empty
context, options spread with the given level. -/
def Monitor.captureMessage (env : Env) (m : Monitor) (message : String)
    (level : String) (options : Option CaptureOptions) : Except Unit Monitor :=
  Monitor.capture env m (.event ⟨"custom", message, none, some []⟩)
    (some { options.getD ⟨none, none, none, none, none, none⟩ with level := some level })

/-- Extract the `ok` value of a pipeline run. -/
def okValue : Except Unit Monitor → Option Monitor
  | .ok m => some m
  | .error _ => none

/-- Concrete environment for evaluating the pipeline at concrete inputs. -/
def envC1 : Env :=
  { userAgent := "ua", url := "http://app", viewportWidth := 800, viewportHeight := 600,
    now := 1000, eventId := "e1", randomDraw := 0, navigatorDefined := true,
    sendBeaconAvailable := true, beacon := fun _ => .ok () }

/-- A hook that appends `"1"` to the event message. -/
def pluginAppend1 : Plugin :=
  { name := "p1",
    beforeCapture := some (fun e => .ok (some { e with message := e.message ++ "1" })),
    afterCapture := none, beforeReport := none }

/-- A hook that appends `"2"` to the event message. -/
def pluginAppend2 : Plugin :=
  { name := "p2",
    beforeCapture := some (fun e => .ok (some { e with message := e.message ++ "2" })),
    afterCapture := none, beforeReport := none }

/-- A concrete initialized monitor with the two appending hooks registered in
order, default-shaped batching, and the offline cache online. -/
def monC1 : Monitor :=
  { config :=
      { appId := "app", dsn := "http://dsn", userId := none, tags := [],
        sampleRate := some 1, errorSampleRate := some 1, filter := none,
        report := some { delay := 1000, batchSize := 10, customReporter := none },
        debug := false, enabled := true }
    isInitialized := true
    sessionId := "sess"
    breadcrumbs := RingBuffer.init Breadcrumb 50
    plugins := [pluginAppend1, pluginAppend2]
    batchQueue := some (⟨10, 1000, true⟩, BatchQueueState.init ErrorReport)
    offlineCache := (⟨100, true, "k"⟩, ⟨[], true, none⟩) }

/-- C1, evaluated at the failing input: the `beforeCapture` loop invokes every
hook on the original normalized event rather than on the working copy, so with
the two message-appending hooks registered in order the assembled report
carries only the second hook's transformation of the original message
(`"a2"`), not the composition of both (`"a12"`) that the spec's
working-copy-replacement semantics requires. -/
theorem beforeCapture_hooks_not_chained :
    (okValue (Monitor.capture envC1 monC1 (.event ⟨"custom", "a", none, some []⟩)
        none)).map
        (fun m2 => m2.batchQueue.map (fun bq => bq.2.queue.map (fun q => q.report.message))) =
      some (some ["a2"]) ∧
    "a2" ≠ "a12" := by
  exact ⟨rfl, by decide⟩

/-! ### The `filter.minLevel` configuration is dead (C10) -/

/-- Replace only `filter.minLevel` in a configuration. -/
def setMinLevelCfg (c : Config) (l : Option String) : Config :=
  { c with filter := c.filter.map (fun f => { f with minLevel := l }) }

/-- Replace only `config.filter.minLevel` in a monitor. -/
def setMinLevel (m : Monitor) (l : Option String) : Monitor :=
  { m with config := setMinLevelCfg m.config l }

theorem shouldFilter_setMinLevelCfg (c : Config) (l : Option String) (e : ErrorType) :
    shouldFilter (setMinLevelCfg c l) e = shouldFilter c e := by
  obtain ⟨appId, dsn, userId, tags, sr, esr, filter, report, dbg, en⟩ := c
  cases filter with
  | none => rfl
  | some f =>
    obtain ⟨ie, iu, ml⟩ := f
    rfl

theorem sampledOut_setMinLevelCfg (c : Config) (l : Option String) (env : Env) :
    sampledOut (setMinLevelCfg c l) env = sampledOut c env := rfl

theorem sendBatchToServer_setMinLevelCfg (c : Config) (l : Option String) (env : Env)
    (reports : List ErrorReport) :
    sendBatchToServer (setMinLevelCfg c l) env reports = sendBatchToServer c env reports := rfl

theorem sendToServerDirectly_setMinLevelCfg (c : Config) (l : Option String) (env : Env)
    (data : ErrorReport) :
    sendToServerDirectly (setMinLevelCfg c l) env data = sendToServerDirectly c env data := rfl

theorem runSendCalls_setMinLevelCfg (c : Config) (l : Option String) (env : Env) :
    ∀ calls, runSendCalls (setMinLevelCfg c l) env calls = runSendCalls c env calls := by
  intro calls
  induction calls with
  | nil => rfl
  | cons cc rest ih =>
    rw [runSendCalls, runSendCalls, sendBatchToServer_setMinLevelCfg, ih]

theorem report_setMinLevel (env : Env) (m : Monitor) (r : ErrorReport) (l : Option String) :
    Monitor.report env (setMinLevel m l) r =
      (Monitor.report env m r).map (fun m2 => setMinLevel m2 l) := by
  rw [Monitor.report, Monitor.report]
  rw [show (setMinLevel m l).plugins = m.plugins from rfl]
  cases hbr : beforeReportLoop r m.plugins r with
  | error e => rfl
  | ok pr =>
    dsimp only
    rw [show (setMinLevel m l).batchQueue = m.batchQueue from rfl]
    cases hbq : m.batchQueue with
    | some pair =>
      obtain ⟨bcfg, bs⟩ := pair
      dsimp only
      rw [show (setMinLevel m l).config = setMinLevelCfg m.config l from rfl,
        runSendCalls_setMinLevelCfg]
      cases hrs : runSendCalls m.config env (BatchQueue.add bcfg bs pr env.now).2 with
      | error e => rfl
      | ok u => rfl
    | none =>
      dsimp only
      rw [show (setMinLevel m l).offlineCache = m.offlineCache from rfl]
      cases hoc : (OfflineCache.send m.offlineCache.1 m.offlineCache.2 pr env.now).1 with
      | some rr =>
        dsimp only
        rw [show (setMinLevel m l).config = setMinLevelCfg m.config l from rfl,
          sendToServerDirectly_setMinLevelCfg]
        cases hstd : sendToServerDirectly m.config env rr with
        | error e => rfl
        | ok u => rfl
      | none => rfl

theorem capture_setMinLevel (env : Env) (m : Monitor) (input : CaptureInput)
    (opts : Option CaptureOptions) (l : Option String) :
    Monitor.capture env (setMinLevel m l) input opts =
      (Monitor.capture env m input opts).map (fun m2 => setMinLevel m2 l) := by
  rw [Monitor.capture, Monitor.capture]
  rw [show (setMinLevel m l).isInitialized = m.isInitialized from rfl,
    show (setMinLevel m l).config = setMinLevelCfg m.config l from rfl,
    shouldFilter_setMinLevelCfg, sampledOut_setMinLevelCfg,
    show (setMinLevelCfg m.config l).enabled = m.config.enabled from rfl,
    show (setMinLevel m l).plugins = m.plugins from rfl]
  by_cases h1 : m.isInitialized = false
  · rw [if_pos h1, if_pos h1]
    rfl
  · rw [if_neg h1, if_neg h1]
    by_cases h2 : m.config.enabled = false
    · rw [if_pos h2, if_pos h2]
      rfl
    · rw [if_neg h2, if_neg h2]
      by_cases h3 : (!(resolveOptions opts).skipFilter &&
          shouldFilter m.config (normalizeInput input)) = true
      · rw [if_pos h3, if_pos h3]
        rfl
      · rw [if_neg h3, if_neg h3]
        by_cases h4 : (!(resolveOptions opts).skipSampling && sampledOut m.config env) = true
        · rw [if_pos h4, if_pos h4]
          rfl
        · rw [if_neg h4, if_neg h4]
          rw [show buildReport env (setMinLevel m l) = buildReport env m from rfl]
          cases hbc : beforeCaptureLoop (normalizeInput input) m.plugins
              (normalizeInput input) with
          | error e => rfl
          | ok o =>
            cases o with
            | none => rfl
            | some pe =>
              dsimp only
              cases hac : afterCaptureLoop m.plugins
                  (buildReport env m (resolveOptions opts) pe) with
              | error e => rfl
              | ok fr =>
                dsimp only
                exact report_setMinLevel env m fr l

theorem setMinLevel_setMinLevel (m : Monitor) (l1 l2 : Option String) :
    setMinLevel (setMinLevel m l2) l1 = setMinLevel m l1 := by
  obtain ⟨⟨appId, dsn, userId, tags, sr, esr, filter, report, dbg, en⟩,
    init, sess, bc, plugins, bq, oc⟩ := m
  cases filter with
  | none => rfl
  | some f => rfl

/-- C10: `filter.minLevel` has no effect on the pipeline.  Two monitors that
differ only in `filter.minLevel` produce, for the same environment (identical
random draw, clock, transport) and the same capture input and options,
identical outcomes: the same raised-or-not result and identical resulting
states — queues, caches, breadcrumbs and the assembled reports — up to the
stored `minLevel` value itself.  The filter decision depends only on the
`ignoreErrors` and `ignoreUrls` patterns. -/
theorem capture_minLevel_no_effect (env : Env) (m : Monitor) (input : CaptureInput)
    (opts : Option CaptureOptions) (l1 l2 : Option String) :
    Monitor.capture env (setMinLevel m l1) input opts =
      (Monitor.capture env (setMinLevel m l2) input opts).map
        (fun m2 => setMinLevel m2 l1) := by
  rw [capture_setMinLevel env m input opts l1, capture_setMinLevel env m input opts l2]
  cases Monitor.capture env m input opts with
  | error e => rfl
  | ok m2 =>
    show Except.ok (setMinLevel m2 l1) = Except.ok (setMinLevel (setMinLevel m2 l2) l1)
    rw [setMinLevel_setMinLevel]

/-! ### Exception safety of the pipeline (C5) -/

/-- A plugin none of whose hooks throws synchronously. -/
def PluginNoThrow (p : Plugin) : Prop :=
  (∀ f, p.beforeCapture = some f → ∀ e, (f e).isOk = true) ∧
  (∀ f, p.afterCapture = some f → ∀ r, (f r).isOk = true) ∧
  (∀ f, p.beforeReport = some f → ∀ r, (f r).isOk = true)

theorem beforeCaptureLoop_isOk (ne : ErrorType) :
    ∀ (ps : List Plugin), (∀ p ∈ ps, PluginNoThrow p) →
      ∀ cur, (beforeCaptureLoop ne ps cur).isOk = true := by
  intro ps
  induction ps with
  | nil => intro _ cur; rfl
  | cons p rest ih =>
    intro hps cur
    rw [beforeCaptureLoop]
    cases hbc : p.beforeCapture with
    | none => exact ih (fun q hq => hps q (List.mem_cons_of_mem p hq)) cur
    | some hook =>
      dsimp only
      have hok := (hps p (List.mem_cons_self p rest)).1 hook hbc ne
      cases hh : hook ne with
      | error e =>
        rw [hh] at hok
        exact Bool.noConfusion hok
      | ok o =>
        cases o with
        | none => rfl
        | some result => exact ih (fun q hq => hps q (List.mem_cons_of_mem p hq)) result

theorem afterCaptureLoop_isOk :
    ∀ (ps : List Plugin), (∀ p ∈ ps, PluginNoThrow p) →
      ∀ report, (afterCaptureLoop ps report).isOk = true := by
  intro ps
  induction ps with
  | nil => intro _ report; rfl
  | cons p rest ih =>
    intro hps report
    rw [afterCaptureLoop]
    cases hac : p.afterCapture with
    | none => exact ih (fun q hq => hps q (List.mem_cons_of_mem p hq)) report
    | some hook =>
      dsimp only
      have hok := (hps p (List.mem_cons_self p rest)).2.1 hook hac report
      cases hh : hook report with
      | error e =>
        rw [hh] at hok
        exact Bool.noConfusion hok
      | ok o =>
        cases o with
        | none => exact ih (fun q hq => hps q (List.mem_cons_of_mem p hq)) report
        | some result => exact ih (fun q hq => hps q (List.mem_cons_of_mem p hq)) result

theorem beforeReportLoop_isOk (data : ErrorReport) :
    ∀ (ps : List Plugin), (∀ p ∈ ps, PluginNoThrow p) →
      ∀ cur, (beforeReportLoop data ps cur).isOk = true := by
  intro ps
  induction ps with
  | nil => intro _ cur; rfl
  | cons p rest ih =>
    intro hps cur
    rw [beforeReportLoop]
    cases hbr : p.beforeReport with
    | none => exact ih (fun q hq => hps q (List.mem_cons_of_mem p hq)) cur
    | some hook =>
      dsimp only
      have hok := (hps p (List.mem_cons_self p rest)).2.2 hook hbr data
      cases hh : hook data with
      | error e =>
        rw [hh] at hok
        exact Bool.noConfusion hok
      | ok o =>
        cases o with
        | none => exact ih (fun q hq => hps q (List.mem_cons_of_mem p hq)) cur
        | some result => exact ih (fun q hq => hps q (List.mem_cons_of_mem p hq)) result

theorem flush_calls_caught {α : Type} (s : BatchQueueState α) :
    ∀ c ∈ (BatchQueue.flush s).2, c.caught = true := by
  intro c hc
  rw [BatchQueue.flush] at hc
  by_cases he : (BatchQueue.clearTimer s).queue.isEmpty
  · rw [if_pos he] at hc
    simp at hc
  · rw [if_neg he] at hc
    simp at hc
    rw [hc]

theorem add_calls_caught {α : Type} (cfg : BatchQueueConfig) (s : BatchQueueState α)
    (r : α) (t : Nat) (hen : cfg.enabled = true) :
    ∀ c ∈ (BatchQueue.add cfg s r t).2, c.caught = true := by
  intro c hc
  rw [BatchQueue.add, if_neg (by rw [hen]; simp)] at hc
  by_cases hsz : cfg.batchSize ≤ (s.queue ++ [(⟨r, t⟩ : QueuedReport α)]).length
  · rw [if_pos hsz] at hc
    exact flush_calls_caught _ c hc
  · rw [if_neg hsz] at hc
    simp at hc

theorem runSendCalls_isOk (cfg : Config) (env : Env) :
    ∀ calls, (∀ c ∈ calls, c.caught = true) → (runSendCalls cfg env calls).isOk = true := by
  intro calls
  induction calls with
  | nil => intro _; rfl
  | cons c rest ih =>
    intro hall
    rw [runSendCalls, if_pos (hall c (List.mem_cons_self c rest))]
    exact ih (fun d hd => hall d (List.mem_cons_of_mem c hd))

theorem report_isOk (env : Env) (m : Monitor) (data : ErrorReport)
    (hhooks : ∀ p ∈ m.plugins, PluginNoThrow p)
    (bcfg : BatchQueueConfig) (bs : BatchQueueState ErrorReport)
    (hbq : m.batchQueue = some (bcfg, bs)) (hen : bcfg.enabled = true) :
    (Monitor.report env m data).isOk = true := by
  rw [Monitor.report]
  cases hbr : beforeReportLoop data m.plugins data with
  | error e =>
    have h := beforeReportLoop_isOk data m.plugins hhooks data
    rw [hbr] at h
    exact Bool.noConfusion h
  | ok pr =>
    dsimp only
    rw [hbq]
    dsimp only
    cases hrs : runSendCalls m.config env (BatchQueue.add bcfg bs pr env.now).2 with
    | error e =>
      have h := runSendCalls_isOk m.config env _
        (add_calls_caught bcfg bs pr env.now hen)
      rw [hrs] at h
      exact Bool.noConfusion h
    | ok u => rfl

theorem capture_isOk (env : Env) (m : Monitor) (input : CaptureInput)
    (opts : Option CaptureOptions)
    (hhooks : ∀ p ∈ m.plugins, PluginNoThrow p)
    (bcfg : BatchQueueConfig) (bs : BatchQueueState ErrorReport)
    (hbq : m.batchQueue = some (bcfg, bs)) (hen : bcfg.enabled = true) :
    (Monitor.capture env m input opts).isOk = true := by
  rw [Monitor.capture]
  by_cases h1 : m.isInitialized = false
  · rw [if_pos h1]
    rfl
  · rw [if_neg h1]
    by_cases h2 : m.config.enabled = false
    · rw [if_pos h2]
      rfl
    · rw [if_neg h2]
      by_cases h3 : (!(resolveOptions opts).skipFilter &&
          shouldFilter m.config (normalizeInput input)) = true
      · rw [if_pos h3]
        rfl
      · rw [if_neg h3]
        by_cases h4 : (!(resolveOptions opts).skipSampling && sampledOut m.config env) = true
        · rw [if_pos h4]
          rfl
        · rw [if_neg h4]
          cases hbc : beforeCaptureLoop (normalizeInput input) m.plugins
              (normalizeInput input) with
          | error e =>
            have h := beforeCaptureLoop_isOk (normalizeInput input) m.plugins hhooks
              (normalizeInput input)
            rw [hbc] at h
            exact Bool.noConfusion h
          | ok o =>
            cases o with
            | none => rfl
            | some pe =>
              dsimp only
              cases hac : afterCaptureLoop m.plugins
                  (buildReport env m (resolveOptions opts) pe) with
              | error e =>
                have h := afterCaptureLoop_isOk m.plugins hhooks
                  (buildReport env m (resolveOptions opts) pe)
                rw [hac] at h
                exact Bool.noConfusion h
              | ok fr =>
                dsimp only
                exact report_isOk env m fr hhooks bcfg bs hbq hen

/-- C5 (amended): with the monitor's standard wiring — batching active (a
batch queue exists with `enabled = true`, as the constructor always sets up
when `config.report` is present) — and plugins whose hooks do not throw,
no call to `capture`, `captureError`, `captureMessage` or `report` ever
raises to the host application, for every input and options and even when the
configured `customReporter` or the transport primitive throws synchronously
(those calls run inside `sendReports`'s try/catch). -/
theorem pipeline_no_raise_with_batching (env : Env) (m : Monitor)
    (input : CaptureInput) (opts : Option CaptureOptions) (data : ErrorReport)
    (message : String) (stack : Option String) (level : String)
    (hhooks : ∀ p ∈ m.plugins, PluginNoThrow p)
    (bcfg : BatchQueueConfig) (bs : BatchQueueState ErrorReport)
    (hbq : m.batchQueue = some (bcfg, bs)) (hen : bcfg.enabled = true) :
    (Monitor.capture env m input opts).isOk = true ∧
    (Monitor.report env m data).isOk = true ∧
    (Monitor.captureError env m message stack opts).isOk = true ∧
    (Monitor.captureMessage env m message level opts).isOk = true := by
  refine ⟨capture_isOk env m input opts hhooks bcfg bs hbq hen,
    report_isOk env m data hhooks bcfg bs hbq hen,
    capture_isOk env m _ opts hhooks bcfg bs hbq hen,
    capture_isOk env m _ _ hhooks bcfg bs hbq hen⟩

/-- A report configuration whose custom reporter throws synchronously. -/
def reportCfgThrowing : ReportConfig :=
  { delay := 1000
    batchSize := 1
    customReporter := some (fun _ => .error ()) }

/-- A plugin whose `beforeCapture` hook throws synchronously. -/
def pluginThrowingHook : Plugin :=
  { name := "boom"
    beforeCapture := some (fun _ => .error ())
    afterCapture := none
    beforeReport := none }

/-- A monitor like `monC1` but with a plugin whose `beforeCapture` hook
throws, and a throwing custom reporter wired in. -/
def monC5throwingHook : Monitor :=
  { config :=
      { appId := "app", dsn := "http://dsn", userId := none, tags := [],
        sampleRate := some 1, errorSampleRate := some 1, filter := none,
        report := some reportCfgThrowing,
        debug := false, enabled := true }
    isInitialized := true
    sessionId := "sess"
    breadcrumbs := RingBuffer.init Breadcrumb 50
    plugins := [pluginThrowingHook]
    batchQueue := some (⟨1, 1000, true⟩, BatchQueueState.init ErrorReport)
    offlineCache := (⟨100, true, "k"⟩, ⟨[], true, none⟩) }

/-- C5 counterexample: nothing in `capture` catches a synchronously throwing
`beforeCapture` hook, so the exception propagates to the host-application
caller — the pipeline does raise, contradicting "every internal failure is
caught and logged inside the pipeline". -/
theorem capture_raises_on_throwing_hook :
    Monitor.capture envC1 monC5throwingHook (.event ⟨"custom", "x", none, some []⟩)
      none = .error () := rfl

/-- A plugin whose hooks all return without throwing. -/
def pluginTame : Plugin :=
  { name := "tame"
    beforeCapture := some (fun e => .ok (some e))
    afterCapture := none
    beforeReport := none }

/-- A monitor with a non-throwing hook and a throwing custom reporter:
the standard-wiring no-raise theorem applies to it. -/
def monC5ok : Monitor :=
  { config :=
      { appId := "app", dsn := "http://dsn", userId := none, tags := [],
        sampleRate := some 1, errorSampleRate := some 1, filter := none,
        report := some reportCfgThrowing,
        debug := false, enabled := true }
    isInitialized := true
    sessionId := "sess"
    breadcrumbs := RingBuffer.init Breadcrumb 50
    plugins := [pluginTame]
    batchQueue := some (⟨1, 1000, true⟩, BatchQueueState.init ErrorReport)
    offlineCache := (⟨100, true, "k"⟩, ⟨[], true, none⟩) }

/-- Witness for the C5 amended theorem: with `batchSize = 1` the capture
immediately flushes through the throwing custom reporter, whose exception is
swallowed by `sendReports`; the call still returns normally. -/
theorem pipeline_no_raise_with_batching_witness :
    (Monitor.capture envC1 monC5ok (.event ⟨"custom", "x", none, some []⟩)
      none).isOk = true ∧
    (Monitor.captureMessage envC1 monC5ok "hello" "info" none).isOk = true := by
  have hhooks : ∀ p ∈ monC5ok.plugins, PluginNoThrow p := by
    intro p hp
    have hp2 : p = pluginTame := by simpa [monC5ok] using hp
    subst hp2
    refine ⟨?_, ?_, ?_⟩
    · intro f hf e
      have hf2 : some (fun e2 =>
          (Except.ok (some e2) : Except Unit (Option ErrorType))) = some f := hf
      obtain rfl := Option.some.inj hf2
      rfl
    · intro f hf r
      exact Option.noConfusion hf
    · intro f hf r
      exact Option.noConfusion hf
  have h := pipeline_no_raise_with_batching envC1 monC5ok
    (.event ⟨"custom", "x", none, some []⟩) none
    (buildReport envC1 monC5ok (resolveOptions none) ⟨"custom", "x", none, some []⟩)
    "hello" none "info" hhooks ⟨1, 1000, true⟩ (BatchQueueState.init ErrorReport) rfl rfl
  exact ⟨h.1, h.2.2.2⟩

end ErrorSDK
